import Mathlib

set_option autoImplicit false

/-!
Verification of the reactive state-container core of the `effect-atom`
repository.  The data model and the operations are shallowly embedded from
the TypeScript sources under `src/packages/rx/src` (`Result.ts`, `Rx.ts`).
Parts of the repository that are not present in the source tree
(the internal registry, the optimistic combinators, hydration) are
modelled from the specification and are marked as such in their doc
comments.
-/

namespace EffectAtom

/-! ## Result — from src/packages/rx/src/Result.ts -/

/-- `effect/Cause`: structured failure cause.  Restricted to the
constructors that occur in the repository's code paths: a typed failure
(`Cause.fail`), a defect (`Cause.die`, defect payload abstracted to a code),
an interruption, and the empty cause. -/
inductive Cause (E : Type) where
  | empty
  | fail (error : E)
  | die (defect : Nat)
  | interrupt
  deriving Repr, DecidableEq

/-- The payload carried by a `Success` Result: `value`, `timestamp` and the
`waiting` flag (Result.ts lines 172-176). -/
structure SuccessData (A : Type) where
  value : A
  timestamp : Nat
  waiting : Bool
  deriving Repr, DecidableEq

/-- `Result<A, E> = Initial | Success | Failure` (Result.ts line 31), each
constructor carrying the fields of the corresponding TS object: every
variant has a `waiting` flag, `Success` carries a `SuccessData`, `Failure`
carries a `cause` and an optional `previousSuccess` (Result.ts lines
112-114, 172-176, 204-208). -/
inductive Result (A E : Type) where
  | Initial (waiting : Bool)
  | Success (data : SuccessData A)
  | Failure (cause : Cause E) (previousSuccess : Option (SuccessData A)) (waiting : Bool)
  deriving Repr, DecidableEq

namespace Result

variable {A E : Type}

/-- The `_tag` discriminator of a Result object. -/
def tagStr : Result A E → String
  | .Initial _ => "Initial"
  | .Success _ => "Success"
  | .Failure _ _ _ => "Failure"

/-- The `waiting` field common to all three variants. -/
def waitingOf : Result A E → Bool
  | .Initial w => w
  | .Success d => d.waiting
  | .Failure _ _ w => w

/-- `isInitial` (Result.ts line 148). -/
def isInitial : Result A E → Bool
  | .Initial _ => true
  | _ => false

/-- `isSuccess` (Result.ts line 182). -/
def isSuccess : Result A E → Bool
  | .Success _ => true
  | _ => false

/-- `isFailure` (Result.ts line 214). -/
def isFailure : Result A E → Bool
  | .Failure _ _ _ => true
  | _ => false

/-- Constructor `initial(waiting)` (Result.ts lines 161-166). -/
def initial (waiting : Bool) : Result A E := .Initial waiting

/-- Constructor `success(value)` with default options: `waiting` defaults to
`false`, the timestamp defaults to `Date.now()`, passed here explicitly as
`now` (Result.ts lines 188-198). -/
def success (value : A) (now : Nat) : Result A E :=
  .Success ⟨value, now, false⟩

/-- Constructor `success(value, options)` with explicit `waiting` and
`timestamp` options (Result.ts lines 188-198). -/
def successWith (value : A) (waiting : Bool) (timestamp : Nat) : Result A E :=
  .Success ⟨value, timestamp, waiting⟩

/-- Constructor `failure(cause, options?)`: `previousSuccess` defaults to
`Option.none()` and `waiting` to `false`; both are passed explicitly
(Result.ts lines 227-240). -/
def failure (cause : Cause E) (previousSuccess : Option (SuccessData A))
    (waiting : Bool) : Result A E :=
  .Failure cause previousSuccess waiting

/-- `waiting(self)`: returns `self` unchanged when already waiting,
otherwise a copy with `waiting = true`; in both cases the result is `self`
with the `waiting` flag set (Result.ts lines 283-290). -/
def waiting : Result A E → Result A E
  | .Initial _ => .Initial true
  | .Success d => .Success { d with waiting := true }
  | .Failure c p _ => .Failure c p true

/-- `waitingFrom(previous)` (Result.ts lines 137-142). -/
def waitingFrom (previous : Option (Result A E)) : Result A E :=
  match previous with
  | none => initial true
  | some r => waiting r

/-- `Option.filter(isSuccess)` applied to a previous Result, extracting the
Success payload, as done by `failureWithPrevious` (Result.ts line 254). -/
def filterSuccess (previous : Option (Result A E)) : Option (SuccessData A) :=
  previous.bind fun r =>
    match r with
    | .Success d => some d
    | _ => none

/-- `failureWithPrevious(cause, options)` where `options` is the record
`{ previous, waiting? }` (Result.ts lines 246-256).  `waitingOpt = none`
models an absent `waiting` option (defaulted to `false` by `failure`). -/
def failureWithPrevious (cause : Cause E) (previous : Option (Result A E))
    (waitingOpt : Option Bool) : Result A E :=
  failure cause (filterSuccess previous) (waitingOpt.getD false)

/-- `failWithPrevious(error, options)` (Result.ts lines 271-277). -/
def failWithPrevious (error : E) (previous : Option (Result A E))
    (waitingOpt : Option Bool) : Result A E :=
  failureWithPrevious (Cause.fail error) previous waitingOpt

/-- `Exit<A, E>` from the effect library: a finished computation, either a
success value or a failure cause. -/
inductive Exit (A E : Type) where
  | Success (value : A)
  | Failure (cause : Cause E)
  deriving Repr, DecidableEq

/-- `fromExit(exit)` (Result.ts lines 120-121); `now` is the timestamp a
fresh `success` would receive. -/
def fromExit (exit : Exit A E) (now : Nat) : Result A E :=
  match exit with
  | .Success v => success v now
  | .Failure c => failure c none false

/-- `fromExitWithPrevious(exit, previous)` (Result.ts lines 127-131); note
that this function takes `previous` positionally and itself builds the
options record `{ previous }` for `failureWithPrevious`. -/
def fromExitWithPrevious (exit : Exit A E) (previous : Option (Result A E))
    (now : Nat) : Result A E :=
  match exit with
  | .Success v => success v now
  | .Failure c => failureWithPrevious c previous none

/-- Accessor `value(self)` (Result.ts lines 310-317). -/
def value : Result A E → Option A
  | .Success d => some d.value
  | .Failure _ p _ => p.map (·.value)
  | .Initial _ => none

/-- Accessor `getOrThrow(self)` (Result.ts lines 332-333): throws a
`NoSuchElementException` when no value is available; the thrown exception is
modelled as the `Except.error` case. -/
def getOrThrow (self : Result A E) : Except String A :=
  match value self with
  | some a => .ok a
  | none => .error "NoSuchElementException: Result.getOrThrow: no value found"

end Result

/-! ## Hash — model of `effect/Hash` (external library), needed by the
Result `Hash.symbol` implementation (Result.ts lines 96-105).  32-bit words
are carried as `Nat` below `2^32` (the unsigned view of JS int32). -/

/-- Truncation to 32 bits (JS `ToInt32`, viewed unsigned). -/
def u32 (n : Nat) : Nat := n % 4294967296

/-- `Hash.optimize(n) = (n & 0xbfffffff) | ((n >> 1) & 0x40000000)`: the
`>>` is an arithmetic shift, so the or-term is bit 31 of `n` placed at
bit 30. -/
def hashOptimize (h : Nat) : Nat :=
  Nat.lor (Nat.land h 0xbfffffff) (if h ≥ 0x80000000 then 0x40000000 else 0)

/-- One step of `Hash.string`'s loop: `h = (h * 33) ^ charCode`. -/
def hashStringStep (h c : Nat) : Nat := Nat.xor (u32 (h * 33)) c

/-- `Hash.string(str)`: DJB2-style hash, iterating char codes from the last
character to the first, starting from 5381, then `optimize`d. -/
def hashString (s : String) : Nat :=
  hashOptimize ((s.toList.reverse).foldl (fun h c => hashStringStep h c.toNat) 5381)

/-- `Hash.combine(b)(self) = (self * 53) ^ b`. -/
def hashCombine (b self : Nat) : Nat := Nat.xor (u32 (self * 53)) b

/-- `Hash.number(n)` for a non-negative integer below `2^31` (the only
numbers the claims hash): `optimize(n)`. -/
def hashNumber (n : Nat) : Nat := hashOptimize (u32 n)

namespace Result

variable {A E : Type}

/-- The Result `Hash.symbol` implementation (Result.ts lines 96-105):
`tagHash = Hash.string(_tag ++ ":" ++ waiting)`; `Initial` hashes to
`tagHash` alone, `Success`/`Failure` to `Hash.combine(tagHash)` applied to
the hash of the value/cause.  Hashing of the carried value and cause is
delegated to the parameters `hashA` and `hashC` (`Hash.hash` of the effect
library on those payloads); `Hash.cached` is a memoisation wrapper and does
not change the computed number. -/
def hashResult (hashA : A → Nat) (hashC : Cause E → Nat) (r : Result A E) : Nat :=
  let tagHash := hashString (r.tagStr ++ ":" ++ (if r.waitingOf then "true" else "false"))
  match r with
  | .Initial _ => tagHash
  | .Success d => hashCombine tagHash (hashA d.value)
  | .Failure c _ _ => hashCombine tagHash (hashC c)

/-- The Result `Equal.symbol` implementation, exactly as written
(Result.ts lines 83-95):

```
if (this._tag !== that._tag && this.waiting !== that.waiting) return false
switch (this._tag) {
  case "Initial": return true
  case "Success": return Equal.equals(this.value, that.value)
  case "Failure": return Equal.equals(this.cause, that.cause)
}
```

Note the `&&` in the guard.  When the guard falls through with *different*
tags, the `Success`/`Failure` arms compare the payload against the missing
field of the other object (`undefined` in JS); a defined value is never
equal to `undefined`, so those cross-tag comparisons yield `false`. -/
def equalsImpl [BEq A] [DecidableEq E] (self that : Result A E) : Bool :=
  if self.tagStr != that.tagStr && self.waitingOf != that.waitingOf then
    false
  else
    match self with
    | .Initial _ => true
    | .Success d =>
      match that with
      | .Success d' => d.value == d'.value
      | _ => false
    | .Failure c _ _ =>
      match that with
      | .Failure c' _ _ => c == c'
      | _ => false

/-- `Equal.equals(self, that)` of the effect library, for two distinct
objects that both implement `Equal`: the hashes are compared first and the
`Equal.symbol` implementation is consulted only when they agree. -/
def equalEquals (hashA : A → Nat) (hashC : Cause E → Nat) [BEq A] [DecidableEq E]
    (self that : Result A E) : Bool :=
  (hashResult hashA hashC self == hashResult hashA hashC that) && equalsImpl self that

end Result

/-! ## makeStream — from src/packages/rx/src/Rx.ts lines 601-637

`makeStream` captures `previous = ctx.self()` when the read starts, then
runs the stream; each emitted item stores `Result.waiting(Result.success(a))`
into the node, and the exit callback stores the final value.  The failure
arm (Rx.ts line 616) and the empty-completion arm (line 622) pass the
`previous` Option *positionally* to `Result.failureWithPrevious` /
`Result.failWithPrevious`, whose second parameter is the record
`{ previous, waiting? }` (Result.ts lines 246-256, 271-277); the dynamic
semantics of that call are modelled below. -/

/-- A JS value occupying the `options` parameter position of
`failureWithPrevious` / `failWithPrevious`: either the expected record
`{ previous, waiting? }`, or an `Option` object passed positionally as
Rx.ts lines 616 and 622 do. -/
inductive JsPrevArg (A E : Type) where
  | record (previous : Option (Result A E)) (waitingOpt : Option Bool)
  | optionValue (o : Option (Result A E))
  deriving Repr

/-- JS property access `options.previous`: present on the record, absent
(`undefined`, modelled as `none`) on an `Option` object, which has only
`_tag`/`value` fields. -/
def jsPreviousField {A E : Type} : JsPrevArg A E → Option (Option (Result A E))
  | .record p _ => some p
  | .optionValue _ => none

/-- JS property access `options.waiting`. -/
def jsWaitingField {A E : Type} : JsPrevArg A E → Option Bool
  | .record _ w => w
  | .optionValue _ => none

/-- `Result.failureWithPrevious(cause, options)` under JS dynamic
semantics: the body evaluates `options.previous.pipe(...)` (Result.ts line
254), which throws a `TypeError` when the `previous` property is
`undefined`.  The thrown exception is the `Except.error` case. -/
def failureWithPreviousJs {A E : Type} (cause : Cause E) (options : JsPrevArg A E) :
    Except String (Result A E) :=
  match jsPreviousField options with
  | some prev => .ok (Result.failureWithPrevious cause prev (jsWaitingField options))
  | none => .error "TypeError: Cannot read properties of undefined (reading pipe)"

/-- `Result.failWithPrevious(error, options)` under JS dynamic semantics
(Result.ts lines 271-277: it forwards `options` to `failureWithPrevious`). -/
def failWithPreviousJs {A E : Type} (error : E) (options : JsPrevArg A E) :
    Except String (Result A E) :=
  failureWithPreviousJs (Cause.fail error) options

/-- The value stored by `makeStream`'s per-item callback (Rx.ts line 612):
`ctx.setSelfSync(Result.waiting(Result.success(a)))`; `now` is the
timestamp the fresh `success` receives. -/
def makeStreamItemValue {A E : Type} (a : A) (now : Nat) : Result A E :=
  Result.waiting (Result.success a now)

/-- How the underlying stream ends: normal completion or failure. -/
inductive StreamOutcome (E : Type) where
  | complete
  | fail (cause : Cause E)
  deriving Repr

/-- The exit callback of `makeStream` (Rx.ts lines 614-627) under JS
dynamic semantics.  `previous` is the node value captured when the read
started; `selfNow` is `ctx.self()` at exit time; `nse` is the
`NoSuchElementException` error value used when the stream completed
without the node ever holding a value.  Returns the Result stored by
`setSelfSync`, or the thrown JS exception. -/
def makeStreamOnExit {A E : Type} (nse : E) (exit : Result.Exit Unit E)
    (selfNow : Option (Result A E)) (previous : Option (Result A E))
    (now : Nat) : Except String (Result A E) :=
  match exit with
  | .Failure cause => failureWithPreviousJs cause (.optionValue previous)
  | .Success _ =>
    match selfNow.bind Result.value with
    | none => failWithPreviousJs nse (.optionValue previous)
    | some a => .ok (Result.success a now)

/-- The value `makeStream` hands back to the registry while the stream is
running (Rx.ts lines 633-636): `waitingFrom previous` when the node already
had a value, else `waiting initialValue`. -/
def makeStreamReturn {A E : Type} (previous : Option (Result A E))
    (initialValue : Result A E) : Result A E :=
  match previous with
  | some _ => Result.waitingFrom previous
  | none => Result.waiting initialValue

/-- One synchronous run of a stream-driven read: the stream emits `items`
and then ends with `outcome` before the read returns (`runCallbackSync`
executes the synchronous part of the fiber immediately).  `previous` is the
node value before the read.  The result is the list of values successively
stored into the node by `setSelfSync`, or the JS exception thrown out of
the run; `ctx.self()` at exit time is the last stored value, or `previous`
when nothing was emitted. -/
def makeStreamRun {A E : Type} (nse : E) (previous : Option (Result A E))
    (items : List A) (outcome : StreamOutcome E) (now : Nat) :
    Except String (List (Result A E)) :=
  let itemValues := items.map (fun a => makeStreamItemValue (E := E) a now)
  let selfNow : Option (Result A E) :=
    match itemValues.getLast? with
    | some v => some v
    | none => previous
  let exit : Result.Exit Unit E :=
    match outcome with
    | .complete => .Success ()
    | .fail c => .Failure c
  match makeStreamOnExit nse exit selfNow previous now with
  | .ok v => .ok (itemValues ++ [v])
  | .error e => .error e

/-! ## makeEffect — from src/packages/rx/src/Rx.ts lines 466-493 -/

/-- The value stored by `makeEffect`'s completion callback (Rx.ts line
482): `Result.fromExitWithPrevious(exit, previous)`, where `previous` is
the node value captured when the computation started.  Note this call is
positional and matches `fromExitWithPrevious`'s positional signature. -/
def makeEffectOnExit {A E : Type} (exit : Result.Exit A E)
    (previous : Option (Result A E)) (now : Nat) : Result A E :=
  Result.fromExitWithPrevious exit previous now

/-- The value `makeEffect` returns while the effect is in flight (Rx.ts
lines 489-492). -/
def makeEffectReturn {A E : Type} (previous : Option (Result A E))
    (initialValue : Result A E) : Result A E :=
  match previous with
  | some _ => Result.waitingFrom previous
  | none => Result.waiting initialValue

/-- The initial value of an effect-driven atom (Rx.ts lines 454-464,
function `effect`): `Result.success(options.initialValue)` when an initial
value was supplied, else `Result.initial()`. -/
def effectInitial {A E : Type} (initialValue : Option A) (now : Nat) : Result A E :=
  match initialValue with
  | some v => Result.success v now
  | none => Result.initial false

/-- The sequence of values an effect-driven node stores across consecutive
computations.  Each run captures `previous = ctx.self()` (`none` before the
first run, the latest settled value afterwards), first shows the in-flight
value `makeEffectReturn previous initialValue`, then the settled value
`makeEffectOnExit exit previous`.  Runs are serialised: starting a new
computation first cancels the previous one via its finalizers, so a
superseded exit never fires. -/
def effectNodeTrace {A E : Type} (initialValue : Result A E)
    (runs : List (Result.Exit A E × Nat)) : List (Result A E) :=
  go none runs
where
  go : Option (Result A E) → List (Result.Exit A E × Nat) → List (Result A E)
  | _, [] => []
  | prev, (e, t) :: rest =>
    let settled := makeEffectOnExit e prev t
    makeEffectReturn prev initialValue :: settled :: go (some settled) rest

/-- `d` agrees with the payload of the most recent prior Success `last` on
`value` and `timestamp` (the identity of a computed Success; the `waiting`
flag is presentation state toggled by `Result.waiting`). -/
def matchesData {A : Type} (d : SuccessData A) (last : Option (SuccessData A)) : Prop :=
  ∃ d', last = some d' ∧ d.value = d'.value ∧ d.timestamp = d'.timestamp

/-- Ghost-state update: the most recent Success payload seen in a trace. -/
def updateLast {A E : Type} (last : Option (SuccessData A)) : Result A E → Option (SuccessData A)
  | .Success d => some d
  | _ => last

/-- Along a list of node values, every Failure whose `previousSuccess` is
present carries the most recent prior Success (`last` is the most recent
Success payload seen before the list starts). -/
def nearestSuccessOk {A E : Type} : Option (SuccessData A) → List (Result A E) → Prop
  | _, [] => True
  | last, v :: vs =>
    (∀ c d w, v = .Failure c (some d) w → matchesData d last)
    ∧ nearestSuccessOk (updateLast last v) vs

/-! ## withFallback — from src/packages/rx/src/Rx.ts lines 948-954 -/

/-- The read function built by `withFallback(self, fallback)`:
`result = get(self); if (result._tag === "Initial") return
Result.waiting(get(fallback)); return result`.  `selfVal` and
`fallbackVal` are the current values `get` yields for the two atoms. -/
def withFallbackRead {A E : Type} (selfVal fallbackVal : Result A E) : Result A E :=
  if selfVal.isInitial then Result.waiting fallbackVal else selfVal

/-! ## family — from src/packages/rx/src/Rx.ts lines 887-921 -/

/-- The memo table of one `family(f)`: the `Map<number, T>` keyed by
`Hash.hash(arg)`.  This is the strong-reference variant (lines 888-901);
the WeakRef variant (lines 903-921) keys its map identically and differs
only in when entries die. -/
structure FamilyState (T : Type) where
  atoms : List (Nat × T)

/-- `Map.get` on the memo table. -/
def famLookup {T : Type} (m : List (Nat × T)) (h : Nat) : Option T :=
  match m with
  | [] => none
  | (k, t) :: rest => if k = h then some t else famLookup rest h

/-- One call of the function returned by `family(f)`: hash the argument,
return the cached atom when one is stored under that hash, otherwise
create, cache and return a new atom.  The table is keyed solely by the
numeric hash; the argument itself is never compared. -/
def familyApply {Arg T : Type} (f : Arg → T) (hashArg : Arg → Nat)
    (s : FamilyState T) (arg : Arg) : T × FamilyState T :=
  let h := hashArg arg
  match famLookup s.atoms h with
  | some atom => (atom, s)
  | none => (f arg, ⟨(h, f arg) :: s.atoms⟩)

/-! ## Registry with batching

Modelled from the spec: the internal registry (`internal/registry.js`,
referenced from Rx.ts line 23 but not present in the source tree).  The
model is specialised to the dependency shape the batching claims quantify
over: two writable value atoms holding `v1 : α` and `v2 : β`, and one
derived atom whose read function is `f v1 v2`, with an optional subscriber
on the derived atom.  Per the spec: writes apply to the node table
immediately and mark dependents dirty; a dirty node is recomputed on the
next read, and once when the batch flushes; "batch(f) runs f with
notification delivery deferred; nested batches only flush once the
outermost batch exits"; "reads performed inside a batch, after a preceding
write in the same batch, must observe the already-applied write". -/

/-- Registry state for the two-dependency scenario: the two stored values,
the derived node's cache and dirty flag, whether a flush is pending for the
derived node, the open-batch depth, and instrumentation counters for
recomputations of the derived read and notifications delivered to its
subscriber. -/
structure RegState (α β γ : Type) where
  v1 : α
  v2 : β
  cache : Option γ
  dirty : Bool
  pending : Bool
  depth : Nat
  computeCount : Nat
  notifyCount : Nat
  subscribed : Bool

namespace RegState

variable {α β γ : Type}

/-- Recompute the derived node: invoke the read function on the current
dependency values, cache the result, clear the dirty flag. -/
def recompute (f : α → β → γ) (s : RegState α β γ) : RegState α β γ :=
  { s with cache := some (f s.v1 s.v2), dirty := false,
           computeCount := s.computeCount + 1 }

/-- Flush after the outermost batch closes (or immediately for a write
outside any batch): recompute the invalidated derived node once if still
dirty, then deliver one notification to its subscriber. -/
def flush (f : α → β → γ) (s : RegState α β γ) : RegState α β γ :=
  if s.pending then
    let s1 := if s.dirty then recompute f s else s
    { s1 with pending := false,
              notifyCount := if s1.subscribed then s1.notifyCount + 1 else s1.notifyCount }
  else s

/-- Invalidation after a write: mark the derived node dirty and its
notification pending; outside a batch the flush runs immediately. -/
def invalidate (f : α → β → γ) (s : RegState α β γ) : RegState α β γ :=
  let s1 := { s with dirty := true, pending := true }
  if s1.depth == 0 then flush f s1 else s1

/-- `registry.set` on the first value atom. -/
def write1 (f : α → β → γ) (a : α) (s : RegState α β γ) : RegState α β γ :=
  invalidate f { s with v1 := a }

/-- `registry.set` on the second value atom. -/
def write2 (f : α → β → γ) (b : β) (s : RegState α β γ) : RegState α β γ :=
  invalidate f { s with v2 := b }

/-- `registry.get` on the derived atom: recompute when dirty or never
computed, else return the cache; yields the observed value and the new
state. -/
def readD (f : α → β → γ) (s : RegState α β γ) : γ × RegState α β γ :=
  if s.dirty || s.cache.isNone then
    (f s.v1 s.v2, recompute f s)
  else
    (s.cache.getD (f s.v1 s.v2), s)

/-- Entering `Atom.batch`: notification delivery is deferred. -/
def openBatch (s : RegState α β γ) : RegState α β γ :=
  { s with depth := s.depth + 1 }

/-- Leaving a batch: only the outermost exit flushes. -/
def closeBatch (f : α → β → γ) (s : RegState α β γ) : RegState α β γ :=
  let s1 := { s with depth := s.depth - 1 }
  if s1.depth == 0 then flush f s1 else s1

end RegState

/-- A registry command: a write to either dependency, a read of the derived
atom, or a (possibly nested) batch of commands. -/
inductive Cmd (α β : Type) where
  | set1 (a : α)
  | set2 (b : β)
  | getD
  | batch (cs : List (Cmd α β))

mutual

/-- Run one command against the registry state. -/
def runCmd {α β γ : Type} (f : α → β → γ) :
    Cmd α β → RegState α β γ → RegState α β γ
  | .set1 a, s => RegState.write1 f a s
  | .set2 b, s => RegState.write2 f b s
  | .getD, s => (RegState.readD f s).2
  | .batch cs, s => RegState.closeBatch f (runCmds f cs (RegState.openBatch s))

/-- Run a list of commands in order. -/
def runCmds {α β γ : Type} (f : α → β → γ) :
    List (Cmd α β) → RegState α β γ → RegState α β γ
  | [], s => s
  | c :: cs, s => runCmds f cs (runCmd f c s)

end

/-- The registry state after the derived atom has been read once with
dependency values `a` and `b` and one subscriber attached: cache filled,
nothing dirty or pending, no open batch. -/
def settledState {α β γ : Type} (f : α → β → γ) (a : α) (b : β) : RegState α β γ :=
  { v1 := a, v2 := b, cache := some (f a b), dirty := false, pending := false,
    depth := 0, computeCount := 1, notifyCount := 0, subscribed := true }

/-! ## Hydration

Modelled from the spec: `Hydration.dehydrate` / `Hydration.hydrate`
(`packages/atom/src/Hydration.ts`, not present in the source tree).
"dehydrate walks all Nodes whose Atom is serializable, encodes each per its
schema into the snapshot list"; "hydrate: for each entry, if no Node yet
exists for that key, sets the decoded value directly into a newly created
Node"; serialization errors degrade rather than throw. -/

/-- A serializable atom: a stable string key, the schema's encode/decode
pair, and `fallback`, the value its read function computes when the node is
materialised without hydrated state. -/
structure SerializableAtom (α β : Type) where
  key : String
  encode : α → β
  decode : β → Option α
  fallback : α

/-- The node table of a registry, restricted to serializable node values:
an association of string keys to stored values. -/
def RegistryNodes (α : Type) : Type := List (String × α)

/-- Node lookup by key. -/
def nodesLookup {α : Type} (nodes : RegistryNodes α) (k : String) : Option α :=
  match nodes with
  | [] => none
  | (k', v) :: rest => if k' = k then some v else nodesLookup rest k

/-- `dehydrate(registryA)` restricted to one serializable atom: when the
registry holds a node for the atom's key, emit the encoded value under that
key. -/
def dehydrate {α β : Type} (atom : SerializableAtom α β)
    (nodes : RegistryNodes α) : List (String × β) :=
  match nodesLookup nodes atom.key with
  | some v => [(atom.key, atom.encode v)]
  | none => []

/-- `hydrate(registryB, snapshot)`: for each entry whose key has no node
yet, create a node holding the decoded value; entries for existing keys
are left untouched, and entries that fail to decode are dropped. -/
def hydrate {α β : Type} (decode : β → Option α) (nodes : RegistryNodes α) :
    List (String × β) → RegistryNodes α
  | [] => nodes
  | (k, bv) :: rest =>
    let nodes' :=
      if (nodesLookup nodes k).isSome then nodes
      else
        match decode bv with
        | some a => (k, a) :: nodes
        | none => nodes
    hydrate decode nodes' rest

/-- `registry.get(atom)` for a serializable atom: the stored node value
when one exists, else the value freshly computed by the atom's read. -/
def getSerializable {α β : Type} (atom : SerializableAtom α β)
    (nodes : RegistryNodes α) : α :=
  (nodesLookup nodes atom.key).getD atom.fallback

/-! ## Optimistic overlay

Modelled from the spec: `Atom.optimistic` / `Atom.optimisticFn`
(`packages/atom/src/Atom.ts`, not present in the source tree).  "layers a
mutable optimistic overlay atom in front of a base atom; a write
immediately applies a user-supplied reducer to produce a locally-visible
value while the real asynchronous fn runs in the background; on commit
(success or failure) the overlay is cleared and the base atom's
authoritative (refreshed) value takes over — readers observe the
optimistic value during the pending window and the true value after
settle, with failures rolling back to the pre-optimistic authoritative
value". -/

/-- The joint state of a base atom and its optimistic overlay: the base
atom's authoritative value and the overlay's locally-predicted value while
a mutation is pending. -/
structure OptimisticState (α : Type) where
  base : α
  overlay : Option α

/-- Reading the optimistic overlay atom: the predicted value while one is
pending, the authoritative base value otherwise. -/
def optimisticRead {α : Type} (s : OptimisticState α) : α :=
  s.overlay.getD s.base

/-- A `set` on the `optimisticFn` atom: the reducer's prediction from the
currently visible value becomes the overlay while the underlying effect
runs; the base atom is untouched. -/
def optimisticSet {α W : Type} (reducer : α → W → α) (u : W)
    (s : OptimisticState α) : OptimisticState α :=
  { s with overlay := some (reducer (optimisticRead s) u) }

/-- Commit after the underlying effect fails: the overlay is cleared, so
reads fall back to the authoritative base value. -/
def optimisticCommitFailure {α : Type} (s : OptimisticState α) : OptimisticState α :=
  { s with overlay := none }

/-- Writes as commands: a value for the first or the second dependency. -/
def writeCmd {α β : Type} : α ⊕ β → Cmd α β
  | .inl a => .set1 a
  | .inr b => .set2 b

/-- Compatibility of the node value a computation starts from with the
ghost record of the most recent Success: whenever the node currently shows
a Success, or a Failure carrying a previousSuccess, that payload agrees
with the ghost. -/
def lastMatches {A E : Type} : Option (Result A E) → Option (SuccessData A) → Prop
  | some (.Success d), last => matchesData d last
  | some (.Failure _ (some d) _), last => matchesData d last
  | _, _ => True

/-! ## Theorems -/

section Theorems

/-- Helper: writes executed while a batch is open neither notify nor change
the batch depth. -/
theorem runCmds_writes_deferred {α β γ : Type} (f : α → β → γ) (ws : List (α ⊕ β)) :
    ∀ s : RegState α β γ, s.depth ≠ 0 →
      (runCmds f (ws.map writeCmd) s).notifyCount = s.notifyCount
      ∧ (runCmds f (ws.map writeCmd) s).depth = s.depth := by
  induction ws with
  | nil => intro s _; exact ⟨rfl, rfl⟩
  | cons w ws ih =>
    intro s hs
    have hbeq : (s.depth == 0) = false := by
      simp [Nat.beq_eq_true_eq]; exact hs
    cases w with
    | inl a =>
      have hrun : runCmd f (writeCmd (Sum.inl a : α ⊕ β)) s
          = { s with v1 := a, dirty := true, pending := true } := by
        simp [writeCmd, runCmd, RegState.write1, RegState.invalidate, hbeq]
      have := ih ({ s with v1 := a, dirty := true, pending := true }) hs
      simpa [List.map, runCmds, hrun] using this
    | inr b =>
      have hrun : runCmd f (writeCmd (Sum.inr b : α ⊕ β)) s
          = { s with v2 := b, dirty := true, pending := true } := by
        simp [writeCmd, runCmd, RegState.write2, RegState.invalidate, hbeq]
      have := ih ({ s with v2 := b, dirty := true, pending := true }) hs
      simpa [List.map, runCmds, hrun] using this

/-- Helper: one flush delivers at most one notification. -/
theorem flush_notify_le {α β γ : Type} (f : α → β → γ) (s : RegState α β γ) :
    (RegState.flush f s).notifyCount ≤ s.notifyCount + 1 := by
  unfold RegState.flush
  by_cases hp : s.pending
  · simp only [hp, if_true]
    by_cases hd : s.dirty
    · simp [hd, RegState.recompute]
      by_cases hsub : s.subscribed <;> simp [hsub]
    · simp [hd]
      by_cases hsub : s.subscribed <;> simp [hsub]
  · simp [hp]

/-- Helper: closing a batch delivers at most one notification. -/
theorem closeBatch_notify_le {α β γ : Type} (f : α → β → γ) (s : RegState α β γ) :
    (RegState.closeBatch f s).notifyCount ≤ s.notifyCount + 1 := by
  unfold RegState.closeBatch
  by_cases hb : (s.depth - 1 == 0) = true
  · simp only [hb, if_true]
    exact flush_notify_le f _
  · simp only [hb, if_false]
    exact Nat.le_succ _

/-- Helper: the invariant of claim C6, propagated along the trace of one
effect-driven node.  The `initialValue` never carries a previousSuccess
(it is built by `effectInitial`), each run starts from `prev` compatible
with the ghost `last`, and every value stored along the remaining runs
then satisfies `nearestSuccessOk`. -/
theorem effectTrace_go_ok {A E : Type} (initialValue : Result A E)
    (hInit : initialValue.isFailure = false)
    (runs : List (Result.Exit A E × Nat)) :
    ∀ (prev : Option (Result A E)) (last : Option (SuccessData A)),
      lastMatches prev last →
      nearestSuccessOk last (effectNodeTrace.go initialValue prev runs) := by
  induction runs with
  | nil => intro prev last _; simp [effectNodeTrace.go, nearestSuccessOk]
  | cons run rest ih =>
    intro prev last hlm
    obtain ⟨e, t⟩ := run
    simp only [effectNodeTrace.go, nearestSuccessOk]
    refine ⟨?_, ?_, ?_⟩
    · -- the in-flight value is never a Failure with a fresh previousSuccess
      intro c d w hv
      match prev, hlm with
      | none, _ =>
        exfalso
        cases hiv : initialValue with
        | Initial w0 => rw [hiv] at hv; simp [makeEffectReturn, Result.waiting] at hv
        | Success d0 => rw [hiv] at hv; simp [makeEffectReturn, Result.waiting] at hv
        | Failure c0 p0 w0 => rw [hiv] at hInit; simp [Result.isFailure] at hInit
      | some (.Initial w0), _ =>
        exfalso; simp [makeEffectReturn, Result.waitingFrom, Result.waiting] at hv
      | some (.Success d0), _ =>
        exfalso; simp [makeEffectReturn, Result.waitingFrom, Result.waiting] at hv
      | some (.Failure c0 none w0), _ =>
        exfalso; simp [makeEffectReturn, Result.waitingFrom, Result.waiting] at hv
      | some (.Failure c0 (some d0) w0), hlm =>
        simp [makeEffectReturn, Result.waitingFrom, Result.waiting] at hv
        obtain ⟨_, hd, _⟩ := hv
        exact hd ▸ hlm
    · -- the settled value's previousSuccess is the most recent Success
      intro c d w hv
      match e with
      | .Success v =>
        exfalso
        simp [makeEffectOnExit, Result.fromExitWithPrevious, Result.success] at hv
      | .Failure c0 =>
        match prev, hlm with
        | none, _ =>
          exfalso
          simp [makeEffectOnExit, Result.fromExitWithPrevious,
            Result.failureWithPrevious, Result.failure, Result.filterSuccess] at hv
        | some (.Initial w0), _ =>
          exfalso
          simp [makeEffectOnExit, Result.fromExitWithPrevious,
            Result.failureWithPrevious, Result.failure, Result.filterSuccess] at hv
        | some (.Success d0), hlm =>
          simp [makeEffectOnExit, Result.fromExitWithPrevious,
            Result.failureWithPrevious, Result.failure, Result.filterSuccess] at hv
          obtain ⟨_, hd, _⟩ := hv
          subst hd
          -- the waiting copy of d0 was just recorded as most recent Success
          exact ⟨{ d0 with waiting := true },
            by simp [makeEffectReturn, Result.waitingFrom, Result.waiting, updateLast], rfl, rfl⟩
        | some (.Failure c1 p1 w1), _ =>
          exfalso
          simp [makeEffectOnExit, Result.fromExitWithPrevious,
            Result.failureWithPrevious, Result.failure, Result.filterSuccess] at hv
    · -- the invariant continues after this run
      apply ih
      match e with
      | .Success v =>
        simp [makeEffectOnExit, Result.fromExitWithPrevious, Result.success,
          lastMatches, updateLast, matchesData]
      | .Failure c0 =>
        match prev, hlm with
        | none, _ =>
          simp [makeEffectOnExit, Result.fromExitWithPrevious,
            Result.failureWithPrevious, Result.failure, Result.filterSuccess, lastMatches]
        | some (.Initial w0), _ =>
          simp [makeEffectOnExit, Result.fromExitWithPrevious,
            Result.failureWithPrevious, Result.failure, Result.filterSuccess, lastMatches]
        | some (.Success d0), _ =>
          simp [makeEffectOnExit, Result.fromExitWithPrevious,
            Result.failureWithPrevious, Result.failure, Result.filterSuccess,
            lastMatches, makeEffectReturn, Result.waitingFrom, Result.waiting,
            updateLast, matchesData]
        | some (.Failure c1 p1 w1), _ =>
          simp [makeEffectOnExit, Result.fromExitWithPrevious,
            Result.failureWithPrevious, Result.failure, Result.filterSuccess, lastMatches]

/-- C1: the claim states that two Results with the same tag and payload but
different `waiting` flags are unequal under the `Equal.symbol`
implementation and under `Equal.equals`, with differing hashes.  Evaluating
the code at `success(1)` versus `waiting(success(1))`: the `Equal.symbol`
implementation returns `true` — the guard at Result.ts line 84 joins the
tag and waiting comparisons with `&&`, so equal-tag pairs skip the waiting
check — while the hashes do differ, which is the only reason the library
entry point `Equal.equals` still returns `false`.  The repository's own
Result test asserts that the `Equal.symbol` call itself returns `false`. -/
theorem equalSymbol_ignores_waiting_on_equal_tags :
    Result.equalsImpl (Result.success 1 0 : Result Nat Unit)
        (Result.waiting (Result.success 1 0)) = true
    ∧ Result.hashResult hashNumber (fun _ => 0) (Result.success 1 0 : Result Nat Unit)
        ≠ Result.hashResult hashNumber (fun _ => 0)
            (Result.waiting (Result.success 1 0) : Result Nat Unit)
    ∧ Result.equalEquals hashNumber (fun _ => 0) (Result.success 1 0 : Result Nat Unit)
        (Result.waiting (Result.success 1 0)) = false := by
  refine ⟨by decide, by decide, by decide⟩

/-- C2: the claim states that each stream item stores `Success(item,
waiting=true)` (which holds: second conjunct) and that a stream failure
stores a Failure carrying the last known success as `previousSuccess`.
Evaluating the code on a fresh node whose stream emits `1` and then fails
with cause `"boom"`: the exit callback (Rx.ts line 616) passes the
`previous` Option positionally to `failureWithPrevious`, which reads the
absent `previous` property of its options record, so the run throws a
TypeError and no Failure is ever stored. -/
theorem makeStream_failure_throws_after_item :
    makeStreamRun (A := Nat) (E := String) "NoSuchElementException" none [1]
        (.fail (Cause.fail "boom")) 0
      = .error "TypeError: Cannot read properties of undefined (reading pipe)"
    ∧ makeStreamItemValue (E := String) (1 : Nat) 0 = Result.successWith 1 true 0 :=
  ⟨rfl, rfl⟩

/-- C3: the claim states that an atom whose wrapped stream fails never
raises out of `registry.get` — the failure should be captured as a
`Result.Failure`.  Evaluating the code on an atom whose stream fails
synchronously during the first read: the exit callback throws a TypeError
(positional `previous` where `failureWithPrevious` expects the record
`{ previous }`), which propagates out of the synchronous read instead of
being captured.  The effect path, by contrast, captures its failure (second
conjunct), and `getOrThrow` is the accessor that raises by design (third
conjunct). -/
theorem makeStream_get_raises_on_sync_failure :
    makeStreamRun (A := Nat) (E := String) "NoSuchElementException" none []
        (.fail (Cause.fail "boom")) 0
      = .error "TypeError: Cannot read properties of undefined (reading pipe)"
    ∧ makeEffectOnExit (A := Nat) (.Failure (Cause.fail "boom")) none 0
      = Result.failure (Cause.fail "boom") none false
    ∧ Result.getOrThrow (Result.initial false : Result Nat String)
      = .error "NoSuchElementException: Result.getOrThrow: no value found" :=
  ⟨rfl, rfl, rfl⟩

/-- C4: read-your-own-writes — starting from a settled registry, a `set` of
the first dependency followed by a `get` of the affected derived node
observes the post-write value `f a' b`, both in the same synchronous call
stack outside any batch (first conjunct) and inside an open batch after a
preceding write in that batch (second conjunct); and after a batch holding
a write and an in-batch read, a subsequent read still observes the applied
writes (third conjunct). -/
theorem registry_read_your_own_writes {α β γ : Type} (f : α → β → γ) (a a' : α) (b : β) :
    (RegState.readD f (RegState.write1 f a' (settledState f a b))).1 = f a' b
    ∧ (RegState.readD f (RegState.write1 f a' (RegState.openBatch (settledState f a b)))).1
        = f a' b
    ∧ (RegState.readD f (runCmd f (.batch [.set1 a', .getD]) (settledState f a b))).1
        = f a' b :=
  ⟨rfl, rfl, rfl⟩

/-- C5: batch coalescing — from a settled registry with a subscriber on the
two-dependency derived atom: a batch with one write to each dependency
recomputes the derived read exactly once and notifies exactly once (first
group); a nested batch flushes only when the outermost batch closes, again
with one recomputation and one notification (second group); and for any
list of writes inside one batch, no notification is delivered while the
batch is open and at most one is delivered in total (third group). -/
theorem registry_batch_coalescing {α β γ : Type} (f : α → β → γ) (a a' : α) (b b' : β) :
    ((runCmd f (.batch [.set1 a', .set2 b']) (settledState f a b)).computeCount = 2
      ∧ (runCmd f (.batch [.set1 a', .set2 b']) (settledState f a b)).notifyCount = 1)
    ∧ ((runCmd f (.batch [.set1 a', .batch [.set2 b']]) (settledState f a b)).computeCount = 2
      ∧ (runCmd f (.batch [.set1 a', .batch [.set2 b']]) (settledState f a b)).notifyCount = 1)
    ∧ (∀ ws : List (α ⊕ β),
        (runCmds f (ws.map writeCmd) (RegState.openBatch (settledState f a b))).notifyCount
            = 0
        ∧ (runCmd f (.batch (ws.map writeCmd)) (settledState f a b)).notifyCount ≤ 1) := by
  refine ⟨⟨rfl, rfl⟩, ⟨rfl, rfl⟩, fun ws => ⟨?_, ?_⟩⟩
  · exact (runCmds_writes_deferred f ws (RegState.openBatch (settledState f a b))
      (by simp [RegState.openBatch, settledState])).1
  · have h := runCmds_writes_deferred f ws (RegState.openBatch (settledState f a b))
      (by simp [RegState.openBatch, settledState])
    have hn : (runCmds f (ws.map writeCmd)
        (RegState.openBatch (settledState f a b))).notifyCount = 0 := by
      rw [h.1]; rfl
    calc (runCmd f (.batch (ws.map writeCmd)) (settledState f a b)).notifyCount
        = (RegState.closeBatch f (runCmds f (ws.map writeCmd)
            (RegState.openBatch (settledState f a b)))).notifyCount := rfl
      _ ≤ (runCmds f (ws.map writeCmd)
            (RegState.openBatch (settledState f a b))).notifyCount + 1 :=
          closeBatch_notify_le f _
      _ = 1 := by rw [hn]

/-- C6: whenever an effect-driven node's value is a Failure whose
`previousSuccess` is present, that previousSuccess agrees with the most
recent prior Success of the same node (value and timestamp), for every
sequence of computations from the node's first read (first conjunct); in
particular, when a computation fails and the node's immediately preceding
settled Result was a Success, the new Failure carries exactly that Success
(second conjunct). -/
theorem effect_previousSuccess_most_recent {A E : Type} (iv : Option A) (t0 : Nat)
    (runs : List (Result.Exit A E × Nat)) :
    nearestSuccessOk none (effectNodeTrace (effectInitial iv t0) runs)
    ∧ ∀ (s : SuccessData A) (c : Cause E) (t : Nat),
        makeEffectOnExit (.Failure c) (some (.Success s)) t = .Failure c (some s) false := by
  constructor
  · have hInit : (effectInitial (A := A) (E := E) iv t0).isFailure = false := by
      cases iv <;> rfl
    exact effectTrace_go_ok (effectInitial iv t0) hInit runs none none (by trivial)
  · intro s c t; rfl

/-- C7: hydration round-trip — for a serializable atom holding `v` in
registry A, hydrating a registry B (in which the atom's key has no node
yet) with the snapshot dehydrated from A makes `get` on B return `v`,
provided the atom's schema decodes its own encoding of `v` back to `v`. -/
theorem hydration_roundtrip {α β : Type} (atom : SerializableAtom α β)
    (v : α) (nodesA nodesB : RegistryNodes α)
    (hA : nodesLookup nodesA atom.key = some v)
    (hRT : atom.decode (atom.encode v) = some v)
    (hB : nodesLookup nodesB atom.key = none) :
    getSerializable atom (hydrate atom.decode nodesB (dehydrate atom nodesA)) = v := by
  simp only [dehydrate, hA, hydrate, hB, Option.isSome_none, Bool.false_eq_true,
    if_false, hRT, getSerializable, nodesLookup, if_pos rfl]
  rfl

/-- C7 witness: the round-trip at a concrete serializable atom with key
`"a"`, identity codec, value 42, a one-node registry A and an empty
registry B. -/
theorem hydration_roundtrip_witness :
    getSerializable (⟨"a", fun n => n, fun n => some n, 0⟩ : SerializableAtom Nat Nat)
      (hydrate (fun n => some n) []
        (dehydrate (⟨"a", fun n => n, fun n => some n, 0⟩ : SerializableAtom Nat Nat)
          [("a", 42)])) = 42 :=
  hydration_roundtrip ⟨"a", fun n => n, fun n => some n, 0⟩ 42 [("a", 42)] []
    (by decide) rfl rfl

/-- C8: optimistic rollback — from a settled overlay state over base value
`base`, a `set` with update `u` makes the overlay read show the reducer's
prediction while the base atom still shows `base`; after the underlying
effect fails, the overlay read shows the authoritative `base` again. -/
theorem optimistic_rollback_on_failure {α W : Type} (reducer : α → W → α) (u : W)
    (base : α) :
    optimisticRead (optimisticSet reducer u ⟨base, none⟩) = reducer base u
    ∧ (optimisticSet reducer u ⟨base, none⟩).base = base
    ∧ optimisticRead (optimisticCommitFailure (optimisticSet reducer u ⟨base, none⟩))
        = base :=
  ⟨rfl, rfl, rfl⟩

/-- C9: `withFallback` — when the value of `self` is `Initial`, the
combinator's read returns the fallback atom's value with the waiting flag
set; when the value of `self` is a Success or a Failure, it returns that
value unchanged. -/
theorem withFallback_initial_substitutes {A E : Type} (selfVal fallbackVal : Result A E) :
    (selfVal.isInitial = true →
      withFallbackRead selfVal fallbackVal = Result.waiting fallbackVal
      ∧ (withFallbackRead selfVal fallbackVal).waitingOf = true)
    ∧ (selfVal.isInitial = false → withFallbackRead selfVal fallbackVal = selfVal) := by
  constructor
  · intro h
    constructor
    · simp [withFallbackRead, h]
    · simp only [withFallbackRead, h, if_true]
      cases fallbackVal <;> simp [Result.waiting, Result.waitingOf]
  · intro h
    simp [withFallbackRead, h]

/-- C9 witness: the fallback substitution at `Initial` versus the identity
behaviour at a Success. -/
theorem withFallback_initial_substitutes_witness :
    (withFallbackRead (Result.initial false : Result Nat Unit) (Result.success 5 0)
        = Result.waiting (Result.success 5 0)
      ∧ (withFallbackRead (Result.initial false : Result Nat Unit)
          (Result.success 5 0)).waitingOf = true)
    ∧ withFallbackRead (Result.success 7 0 : Result Nat Unit) (Result.success 5 0)
        = Result.success 7 0 :=
  ⟨(withFallback_initial_substitutes (Result.initial false) (Result.success 5 0)).1
      (by decide),
    (withFallback_initial_substitutes (Result.success 7 0) (Result.success 5 0)).2
      (by decide)⟩

/-- C10: `family` memoisation is keyed solely by the argument's numeric
hash — for any two arguments with equal hashes, even structurally distinct
ones, the second call returns the atom cached by the first call and leaves
the table unchanged. -/
theorem family_hash_collision_aliases {Arg T : Type} (f : Arg → T) (hashArg : Arg → Nat)
    (s : FamilyState T) (arg1 arg2 : Arg)
    (hcol : hashArg arg1 = hashArg arg2) (_hne : arg1 ≠ arg2) :
    (familyApply f hashArg (familyApply f hashArg s arg1).2 arg2).1
        = (familyApply f hashArg s arg1).1
    ∧ (familyApply f hashArg (familyApply f hashArg s arg1).2 arg2).2
        = (familyApply f hashArg s arg1).2 := by
  unfold familyApply
  rw [← hcol]
  cases hl : famLookup s.atoms (hashArg arg1) with
  | some atom => simp [hl]
  | none => simp [hl, famLookup]

/-- C10 witness: two distinct arguments with colliding hashes receive the
same cached atom from an initially empty family table. -/
theorem family_hash_collision_aliases_witness :
    (familyApply (fun n => n) (fun _ => 0)
        (familyApply (fun n => n) (fun _ => 0) (⟨[]⟩ : FamilyState Nat) 1).2 2).1
      = (familyApply (fun n => n) (fun _ => 0) (⟨[]⟩ : FamilyState Nat) 1).1
    ∧ (familyApply (fun n => n) (fun _ => 0)
        (familyApply (fun n => n) (fun _ => 0) (⟨[]⟩ : FamilyState Nat) 1).2 2).2
      = (familyApply (fun n => n) (fun _ => 0) (⟨[]⟩ : FamilyState Nat) 1).2 :=
  family_hash_collision_aliases (fun n => n) (fun _ => 0) ⟨[]⟩ 1 2 rfl (by decide)

end Theorems

end EffectAtom
